import Mathlib

/-!
Verification development for the GitKeGunde automated code-review agent
(src/main.py). The file embeds, as executable Lean definitions, the four
core components of the service:

* `map_line_to_position` — the Diff Position Mapper (src/main.py lines 59-74);
* `extract_changed_lines` — the Diff Line-Pair Extractor (lines 26-42);
* `parseReview` — the Structured Review Parser inlined in `webhook_handler`
  (lines 294-324);
* `reconcile` — the Review Reconciler loop of `webhook_handler` (lines 326-339),
  with the external "post inline comment" capability abstracted as a function
  parameter returning `Except`.

Python strings are modelled as `List Char`; `str.splitlines` is modelled for
newline-terminated text (the only line separator occurring in unified diffs
and in the review-text convention). Python `dict` is modelled as an
association list in insertion order, with `dict[k] = v` updating in place
when the key is present and appending otherwise, exactly as CPython does.
-/

namespace GitKeGunde

/-- Characters stripped by Python `str.strip()` (the ASCII whitespace set). -/
def isPySpace (c : Char) : Bool :=
  c == ' ' || c == '\t' || c == '\n' || c == '\r' || c == Char.ofNat 11 || c == Char.ofNat 12

/-- Python `s.strip()`: drop leading and trailing whitespace. -/
def pyStrip (cs : List Char) : List Char :=
  List.rdropWhile isPySpace (cs.dropWhile isPySpace)

/-- Python `line.startswith(p)` on a character-list line. -/
def startswith (cs : List Char) (p : String) : Bool :=
  List.isPrefixOf p.data cs

/-- Helper for `splitlines`: accumulate the current line (reversed) while
scanning; a trailing newline does not open an empty final line, matching
Python `str.splitlines`. -/
def splitlinesAux : List Char → List Char → List (List Char)
  | [], [] => []
  | [], acc => [acc.reverse]
  | '\n' :: rest, acc => acc.reverse :: splitlinesAux rest []
  | c :: rest, acc => splitlinesAux rest (c :: acc)

/-- Python `s.splitlines()` for `\n`-separated text:
`"" ↦ []`, `"a\n" ↦ ["a"]`, `"a\nb" ↦ ["a", "b"]`. -/
def splitlines (cs : List Char) : List (List Char) :=
  splitlinesAux cs []

/-- Decimal value of a digit string (used after `Char.isDigit` has been
checked on every character). -/
def natOfDigits (ds : List Char) : Nat :=
  ds.foldl (fun a c => a * 10 + (c.toNat - 48)) 0

/-- Consume a maximal nonempty run of digits (the regex atom `\d+`),
returning its value and the rest of the input. -/
def digitsSplit (cs : List Char) : Option (Nat × List Char) :=
  let ds := cs.takeWhile Char.isDigit
  if ds.isEmpty then none else some (natOfDigits ds, cs.dropWhile Char.isDigit)

/-- Consume the optional regex group `(?:,\d+)?`. In the hunk-header pattern
this group is always followed by a literal that is not a comma, so a comma
not followed by digits makes the whole match fail. -/
def chompCommaDigits (cs : List Char) : Option (List Char) :=
  match cs with
  | ',' :: rest =>
    match digitsSplit rest with
    | some (_, rest2) => some rest2
    | none => none
  | _ => some cs

/-- The hunk-header match of src/main.py line 66:
`re.match(r"@@ -\d+(?:,\d+)? \+(\d+)(?:,\d+)? @@", line)`, returning the
captured post-image start number (group 1) when the line's prefix matches. -/
def hunkNewStart? (cs : List Char) : Option Int :=
  if startswith cs "@@ -" then
    match digitsSplit (cs.drop 4) with
    | none => none
    | some (_, r1) =>
      match chompCommaDigits r1 with
      | none => none
      | some r2 =>
        match r2 with
        | ' ' :: '+' :: r3 =>
          match digitsSplit r3 with
          | none => none
          | some (n, r4) =>
            match chompCommaDigits r4 with
            | none => none
            | some r5 => if startswith r5 " @@" then some (Int.ofNat n) else none
        | _ => none
  else none

/-- The loop state of `map_line_to_position` (src/main.py lines 60-62):
`line_map`, `position`, `new_line_num`. `new_line_num` is an `Int` because
a header `@@ -0 +0 @@` sets it to `-1`. -/
structure MapState where
  line_map : List (Int × Nat)
  position : Nat
  new_line_num : Int
deriving DecidableEq, Repr

/-- Python `d[k] = v` on an insertion-ordered dict: update in place when the
key exists, append otherwise. -/
def dictInsert (m : List (Int × Nat)) (k : Int) (v : Nat) : List (Int × Nat) :=
  if m.any (fun e => e.1 == k) then
    m.map (fun e => if e.1 == k then (k, v) else e)
  else m ++ [(k, v)]

/-- One iteration of the `for line in patch.splitlines()` loop of
`map_line_to_position` (src/main.py lines 63-73). `position` is incremented
for every line; a matching hunk header resets `new_line_num`; an added or
context line records `line_map[new_line_num] = position`; removed and other
lines do nothing further. -/
def mapStep (st : MapState) (line : List Char) : MapState :=
  if startswith line "@@" then
    match hunkNewStart? line with
    | some newStart =>
      { line_map := st.line_map, position := st.position + 1, new_line_num := newStart - 1 }
    | none => { st with position := st.position + 1 }
  else if startswith line "+" || startswith line " " then
    { line_map := dictInsert st.line_map (st.new_line_num + 1) (st.position + 1),
      position := st.position + 1,
      new_line_num := st.new_line_num + 1 }
  else if startswith line "-" then
    { st with position := st.position + 1 }
  else
    { st with position := st.position + 1 }

/-- Initial state of `map_line_to_position`: empty map, `position = 0`,
`new_line_num = 0`. -/
def initMapState : MapState :=
  { line_map := [], position := 0, new_line_num := 0 }

/-- `map_line_to_position` (src/main.py lines 59-74): the Diff Position
Mapper. Returns the line map as an insertion-ordered association list from
resulting-file line number to diff position. -/
def map_line_to_position (patch : String) : List (Int × Nat) :=
  (List.foldl mapStep initMapState (splitlines patch.data)).line_map

/-- Strict monotonicity of a line map: larger resulting-file line numbers
carry strictly larger diff positions. -/
def mapMono (m : List (Int × Nat)) : Prop :=
  ∀ p ∈ m, ∀ q ∈ m, p.1 < q.1 → p.2 < q.2

/-- A map line is recorded exactly when it reaches the added-or-context
branch of `map_line_to_position`: it does not start with `@@` and starts
with `+` or a space. -/
def isRecordLine (line : List Char) : Bool :=
  !(startswith line "@@") && (startswith line "+" || startswith line " ")

/-- A run of the Mapper records strictly increasing resulting-file line
numbers: before every recording step, the line number about to be recorded
exceeds every key already in the map. This holds for every well-formed
patch, whose hunks are disjoint and appear in ascending order. -/
def goodRun : List (List Char) → MapState → Bool
  | [], _ => true
  | l :: ls, st =>
    (if isRecordLine l then
       st.line_map.all (fun e => decide (e.1 < st.new_line_num + 1))
     else true)
    && goodRun ls (mapStep st l)

/-! ## Diff Line-Pair Extractor -/

/-- The loop state of `extract_changed_lines` (src/main.py lines 31-32):
the accumulated pairs and the pending removed line. Python's
`prev_line = None` is `none`; note the truthiness test `if prev_line:`
treats an empty pending string as no pending removal. -/
structure ExtState where
  changes : List (String × String)
  prev_line : Option String
deriving DecidableEq, Repr

/-- One iteration of the loop of `extract_changed_lines`
(src/main.py lines 33-41). -/
def extractStep (st : ExtState) (line : List Char) : ExtState :=
  if startswith line "-" && !startswith line "---" then
    { st with prev_line := some (String.mk (pyStrip (line.drop 1))) }
  else if startswith line "+" && !startswith line "+++" then
    match st.prev_line with
    | some s =>
      if s = "" then
        { st with changes := st.changes ++ [("", String.mk (pyStrip (line.drop 1)))] }
      else
        { changes := st.changes ++ [(s, String.mk (pyStrip (line.drop 1)))], prev_line := none }
    | none =>
      { st with changes := st.changes ++ [("", String.mk (pyStrip (line.drop 1)))] }
  else st

/-- `extract_changed_lines` (src/main.py lines 26-42): the Diff Line-Pair
Extractor, returning (removed_line, added_line) pairs. -/
def extract_changed_lines (diff_text : String) : List (String × String) :=
  (List.foldl extractStep { changes := [], prev_line := none } (splitlines diff_text.data)).changes

/-! ## Structured Review Parser -/

/-- One finding parsed from a `File:`-delimited block of the LLM review
text (the per-block local variables of src/main.py lines 298-304 at the
end of the block's scan). -/
structure ReviewFinding where
  file_path : String
  line_number : Option Int
  severity : Option String
  issue : Option String
  suggestion : Option String
  suggestion_code : String
deriving DecidableEq, Repr

/-- The per-block scan state (src/main.py lines 299-304). `suggestion_code`
is kept as a character list while scanning. -/
structure BlockState where
  line_num : Option Int
  severity : Option String
  issue : Option String
  suggestion : Option String
  in_code_block : Bool
  suggestion_code : List Char
deriving DecidableEq, Repr

/-- Python `int(s)` on an already-extracted field value: strip whitespace,
accept an optional sign followed by one or more digits, otherwise fail
(modelling the `except` branch that sets `line_num = None`). -/
def pyInt? (cs : List Char) : Option Int :=
  match pyStrip cs with
  | '-' :: ds => if !ds.isEmpty && ds.all Char.isDigit then some (-(natOfDigits ds : Int)) else none
  | '+' :: ds => if !ds.isEmpty && ds.all Char.isDigit then some ((natOfDigits ds : Int)) else none
  | ds => if !ds.isEmpty && ds.all Char.isDigit then some ((natOfDigits ds : Int)) else none

/-- `line.split(":", 1)[1].strip()` for a line known to start with a field
prefix of length `plen` ending in the line's first colon. -/
def fieldVal (line : List Char) (plen : Nat) : String :=
  String.mk (pyStrip (line.drop plen))

/-- One iteration of the per-block scan (src/main.py lines 306-324): the
`Line:`/`Severity:`/`Issue:`/`Suggestion:` field captures, the
```` ```suggestion ```` fence opening (which resets the captured code), the
```` ``` ```` fence close, and code accumulation inside an open fence. -/
def blockStep (st : BlockState) (line : List Char) : BlockState :=
  if startswith line "Line:" then
    { st with line_num := pyInt? (line.drop 5) }
  else if startswith line "Severity:" then
    { st with severity := some (fieldVal line 9) }
  else if startswith line "Issue:" then
    { st with issue := some (fieldVal line 6) }
  else if startswith line "Suggestion:" then
    { st with suggestion := some (fieldVal line 11) }
  else if startswith (pyStrip line) "```suggestion" then
    { st with in_code_block := true, suggestion_code := [] }
  else if pyStrip line = "```".data && st.in_code_block then
    { st with in_code_block := false }
  else if st.in_code_block then
    { st with suggestion_code := st.suggestion_code ++ line ++ ['\n'] }
  else st

/-- Initial per-block state (src/main.py lines 299-304). -/
def initBlockState : BlockState :=
  { line_num := none, severity := none, issue := none, suggestion := none,
    in_code_block := false, suggestion_code := [] }

/-- Python `text.split("File:")`, specialised to the literal separator used
at src/main.py line 294. -/
def splitOnFileAux : List Char → List Char → List (List Char)
  | 'F' :: 'i' :: 'l' :: 'e' :: ':' :: rest, acc => acc.reverse :: splitOnFileAux rest []
  | c :: rest, acc => splitOnFileAux rest (c :: acc)
  | [], acc => [acc.reverse]

/-- Parse one `File:`-delimited block (src/main.py lines 296-324). The
`.error` case models the `IndexError` raised by `lines[0]` when
`block.strip().splitlines()` is empty. -/
def parseBlock (block : List Char) : Except String ReviewFinding :=
  match splitlines (pyStrip block) with
  | [] => Except.error "list index out of range"
  | first :: rest =>
    let st := List.foldl blockStep initBlockState rest
    Except.ok
      { file_path := String.mk (pyStrip first)
        line_number := st.line_num
        severity := st.severity
        issue := st.issue
        suggestion := st.suggestion
        suggestion_code := String.mk st.suggestion_code }

/-- The Structured Review Parser (src/main.py lines 294-324): split the
review text on `File:`, discard the preamble before the first marker, and
parse each remaining block in order; a raising block aborts the scan, as
the uncaught `IndexError` would. -/
def parseReview (text : String) : Except String (List ReviewFinding) :=
  (List.mapM parseBlock ((splitOnFileAux text.data []).drop 1))

/-! ## Review Reconciler -/

/-- An inline review comment request (`post_inline_comment` call site,
src/main.py lines 332-335). -/
structure InlineCommentRequest where
  file_path : String
  position : Nat
  body : String
deriving DecidableEq, Repr

/-- A diagnostic printed by the reconciler loop: either the unmapped-finding
message of src/main.py line 339 or the failed-posting message of line 337. -/
inductive Diag where
  | unmapped : String → Option Int → Diag
  | postFailed : String → Option Int → String → Diag
deriving DecidableEq, Repr

/-- Python `severity or 'Info'`: `None` and the empty string are falsy. -/
def pyOrInfo : Option String → String
  | none => "Info"
  | some s => if s = "" then "Info" else s

/-- Rendering of an optional field inside an f-string: `None` prints as
`"None"`. -/
def pyShowOpt : Option String → String
  | none => "None"
  | some s => s

/-- The inline comment body f-string of src/main.py lines 328-330. -/
def comment_body (sev issue sugg : Option String) (code : String) : String :=
  "**" ++ pyOrInfo sev ++ "**\n\nIssue: " ++ pyShowOpt issue ++
    "\n\nSuggestion: " ++ pyShowOpt sugg ++ "\n\n```suggestion\n" ++
    String.mk (pyStrip code.data) ++ "\n```"

/-- The per-finding body of the reconciler loop (src/main.py lines 326-339):
look the finding up in the per-file maps; on a hit build the body and invoke
the posting capability, turning a posting error into a diagnostic; on a miss
(unknown file, absent line number, or unmapped line) record one unmapped
diagnostic and drop the finding. -/
def reconcileOne (maps : List (String × List (Int × Nat)))
    (post : InlineCommentRequest → Except String Unit)
    (f : ReviewFinding) : List InlineCommentRequest × List Diag :=
  match List.lookup f.file_path maps with
  | some m =>
    match f.line_number with
    | some n =>
      match List.lookup n m with
      | some pos =>
        let req : InlineCommentRequest :=
          { file_path := f.file_path, position := pos,
            body := comment_body f.severity f.issue f.suggestion f.suggestion_code }
        match post req with
        | Except.ok _ => ([req], [])
        | Except.error e => ([req], [Diag.postFailed f.file_path f.line_number e])
      | none => ([], [Diag.unmapped f.file_path f.line_number])
    | none => ([], [Diag.unmapped f.file_path f.line_number])
  | none => ([], [Diag.unmapped f.file_path f.line_number])

/-- The Review Reconciler: run `reconcileOne` over every finding in order,
concatenating the emitted requests and diagnostics. Totality of this
function models the loop never aborting. -/
def reconcile (maps : List (String × List (Int × Nat)))
    (post : InlineCommentRequest → Except String Unit) :
    List ReviewFinding → List InlineCommentRequest × List Diag
  | [] => ([], [])
  | f :: rest =>
    let r := reconcileOne maps post f
    let rs := reconcile maps post rest
    (r.1 ++ rs.1, r.2 ++ rs.2)

/-! ## Helper lemmas on `startswith` and `pyStrip` -/

theorem startswith_shape {l : List Char} {q : String} {d : Char} {dt : List Char}
    (hq : q.data = d :: dt) (h : startswith l q = true) : ∃ t, l = d :: t := by
  unfold startswith at h
  rw [hq] at h
  cases l with
  | nil => simp [List.isPrefixOf] at h
  | cons a t =>
    simp [List.isPrefixOf] at h
    exact ⟨t, by rw [h.1]⟩

theorem startswith_cons_ne {c d : Char} {ds : List Char} {dt : List Char} {q : String}
    (hq : q.data = d :: dt) (h : d ≠ c) : startswith (c :: ds) q = false := by
  unfold startswith
  rw [hq]
  simp [List.isPrefixOf]
  intro hd
  exact absurd hd h

theorem startswith_excl {l : List Char} {p q : String}
    (hpq : ¬ (p.data <+: q.data)) (hqp : ¬ (q.data <+: p.data))
    (h : startswith l p = true) : startswith l q = false := by
  unfold startswith at h ⊢
  rw [List.isPrefixOf_iff_prefix] at h
  rw [← Bool.not_eq_true, List.isPrefixOf_iff_prefix]
  intro hql
  rcases List.prefix_or_prefix_of_prefix h hql with h1 | h1
  · exact hpq h1
  · exact hqp h1

theorem pyStrip_cons_of_not_space {c : Char} {cs : List Char} (h : isPySpace c = false) :
    ∃ ds, pyStrip (c :: cs) = c :: ds := by
  unfold pyStrip
  rw [List.dropWhile_cons, if_neg (by simp [h])]
  rcases hr : List.rdropWhile isPySpace (c :: cs) with _ | ⟨a, t⟩
  · exact absurd (List.rdropWhile_eq_nil_iff.mp hr c (List.mem_cons_self c cs)) (by simp [h])
  · have hp : List.rdropWhile isPySpace (c :: cs) <+: c :: cs := List.rdropWhile_prefix _ _
    rw [hr] at hp
    rcases hp with ⟨u, hu⟩
    have : a = c := (List.cons.injEq _ _ _ _).mp hu |>.1
    exact ⟨t, by rw [this]⟩

/-! ## Mapper monotonicity machinery -/

instance decMapMono (m : List (Int × Nat)) : Decidable (mapMono m) := by
  unfold mapMono
  exact inferInstance

/-- Invariant carried through the Mapper's scan: entries are pairwise
increasing in both key and position, and every recorded position is at most
the running position. -/
def mapInv (st : MapState) : Prop :=
  st.line_map.Pairwise (fun a b => a.1 < b.1 ∧ a.2 < b.2) ∧
  ∀ e ∈ st.line_map, e.2 ≤ st.position

theorem dictInsert_of_fresh (m : List (Int × Nat)) (k : Int) (v : Nat)
    (h : ∀ e ∈ m, e.1 ≠ k) : dictInsert m k v = m ++ [(k, v)] := by
  unfold dictInsert
  rw [if_neg]
  simp only [List.any_eq_true, beq_iff_eq, not_exists, not_and]
  exact fun e he => h e he

theorem mapStep_hunk_some (st : MapState) (l : List Char) (ns : Int)
    (h1 : startswith l "@@" = true) (hhn : hunkNewStart? l = some ns) :
    mapStep st l =
      { line_map := st.line_map, position := st.position + 1, new_line_num := ns - 1 } := by
  simp [mapStep, h1, hhn]

theorem mapStep_hunk_none (st : MapState) (l : List Char)
    (h1 : startswith l "@@" = true) (hhn : hunkNewStart? l = none) :
    mapStep st l = { st with position := st.position + 1 } := by
  simp [mapStep, h1, hhn]

theorem mapStep_record (st : MapState) (l : List Char)
    (h1 : startswith l "@@" = false) (h2 : (startswith l "+" || startswith l " ") = true) :
    mapStep st l =
      { line_map := dictInsert st.line_map (st.new_line_num + 1) (st.position + 1),
        position := st.position + 1, new_line_num := st.new_line_num + 1 } := by
  simp [mapStep, h1, h2]

theorem mapStep_other (st : MapState) (l : List Char)
    (h1 : startswith l "@@" = false) (h2 : (startswith l "+" || startswith l " ") = false) :
    mapStep st l = { st with position := st.position + 1 } := by
  simp [mapStep, h1, h2]

theorem mapStep_inv (st : MapState) (l : List Char)
    (hgood : isRecordLine l = true →
      st.line_map.all (fun e => decide (e.1 < st.new_line_num + 1)) = true)
    (hinv : mapInv st) : mapInv (mapStep st l) := by
  rcases hinv with ⟨hpw, hle⟩
  cases hb1 : startswith l "@@" with
  | true =>
    cases hhn : hunkNewStart? l with
    | some ns =>
      rw [mapStep_hunk_some st l ns hb1 hhn]
      exact ⟨hpw, fun e he => le_trans (hle e he) (Nat.le_succ _)⟩
    | none =>
      rw [mapStep_hunk_none st l hb1 hhn]
      exact ⟨hpw, fun e he => le_trans (hle e he) (Nat.le_succ _)⟩
  | false =>
    cases hb2 : (startswith l "+" || startswith l " ") with
    | false =>
      rw [mapStep_other st l hb1 hb2]
      exact ⟨hpw, fun e he => le_trans (hle e he) (Nat.le_succ _)⟩
    | true =>
      have hrec : isRecordLine l = true := by
        simp [isRecordLine, hb1, hb2]
      have hall : ∀ e ∈ st.line_map, e.1 < st.new_line_num + 1 := by
        have h := hgood hrec
        simp only [List.all_eq_true, decide_eq_true_eq] at h
        exact h
      rw [mapStep_record st l hb1 hb2,
        dictInsert_of_fresh _ _ _ (fun e he => ne_of_lt (hall e he))]
      constructor
      · show List.Pairwise _ (st.line_map ++ [(st.new_line_num + 1, st.position + 1)])
        rw [List.pairwise_append]
        refine ⟨hpw, List.pairwise_singleton _ _, ?_⟩
        intro a ha b hb
        rw [List.mem_singleton] at hb
        subst hb
        exact ⟨hall a ha, Nat.lt_succ_of_le (hle a ha)⟩
      · show ∀ e ∈ st.line_map ++ [(st.new_line_num + 1, st.position + 1)], e.2 ≤ st.position + 1
        intro e he
        rcases List.mem_append.mp he with he' | he'
        · exact le_trans (hle e he') (Nat.le_succ _)
        · rw [List.mem_singleton] at he'
          subst he'
          exact le_refl _

theorem goodRun_inv (ls : List (List Char)) :
    ∀ st, goodRun ls st = true → mapInv st → mapInv (List.foldl mapStep st ls) := by
  induction ls with
  | nil => exact fun st _ h => h
  | cons l ls ih =>
    intro st hg hinv
    rw [goodRun, Bool.and_eq_true] at hg
    rw [List.foldl_cons]
    refine ih _ hg.2 (mapStep_inv st l (fun hrec => ?_) hinv)
    have := hg.1
    rw [if_pos hrec] at this
    exact this

theorem pairwise_mapMono {m : List (Int × Nat)}
    (h : m.Pairwise (fun a b => a.1 < b.1 ∧ a.2 < b.2)) : mapMono m := by
  induction m with
  | nil => intro p hp; cases hp
  | cons x m ih =>
    rw [List.pairwise_cons] at h
    rcases h with ⟨hx, hm⟩
    intro p hp q hq hlt
    rcases List.mem_cons.mp hp with rfl | hp'
    · rcases List.mem_cons.mp hq with rfl | hq'
      · exact absurd hlt (lt_irrefl _)
      · exact (hx q hq').2
    · rcases List.mem_cons.mp hq with rfl | hq'
      · exact absurd (hx p hp').1 (lt_asymm hlt)
      · exact ih hm p hp' q hq' hlt

/-! ## Parser last-occurrence machinery -/

theorem blockStep_line_num (s : BlockState) (l : List Char)
    (h : startswith l "Line:" = false) : (blockStep s l).line_num = s.line_num := by
  unfold blockStep
  rw [if_neg (by simp [h])]
  split_ifs <;> rfl

theorem blockStep_severity (s : BlockState) (l : List Char)
    (h : startswith l "Severity:" = false) : (blockStep s l).severity = s.severity := by
  unfold blockStep
  split_ifs with h1 h2 <;> first | rfl | (rw [h] at h2; cases h2)

theorem blockStep_issue (s : BlockState) (l : List Char)
    (h : startswith l "Issue:" = false) : (blockStep s l).issue = s.issue := by
  unfold blockStep
  split_ifs with h1 h2 h3 <;> first | rfl | (rw [h] at h3; cases h3)

theorem blockStep_suggestion (s : BlockState) (l : List Char)
    (h : startswith l "Suggestion:" = false) : (blockStep s l).suggestion = s.suggestion := by
  unfold blockStep
  split_ifs with h1 h2 h3 h4 <;> first | rfl | (rw [h] at h4; cases h4)

theorem blockStep_line_num_set (s : BlockState) (l : List Char)
    (h : startswith l "Line:" = true) : (blockStep s l).line_num = pyInt? (l.drop 5) := by
  unfold blockStep
  rw [if_pos h]

theorem blockStep_severity_set (s : BlockState) (l : List Char)
    (h : startswith l "Severity:" = true) : (blockStep s l).severity = some (fieldVal l 9) := by
  have hL : startswith l "Line:" = false := startswith_excl (by decide) (by decide) h
  unfold blockStep
  rw [if_neg (by simp [hL]), if_pos h]

theorem blockStep_issue_set (s : BlockState) (l : List Char)
    (h : startswith l "Issue:" = true) : (blockStep s l).issue = some (fieldVal l 6) := by
  have hL : startswith l "Line:" = false := startswith_excl (by decide) (by decide) h
  have hS : startswith l "Severity:" = false := startswith_excl (by decide) (by decide) h
  unfold blockStep
  rw [if_neg (by simp [hL]), if_neg (by simp [hS]), if_pos h]

theorem blockStep_suggestion_set (s : BlockState) (l : List Char)
    (h : startswith l "Suggestion:" = true) :
    (blockStep s l).suggestion = some (fieldVal l 11) := by
  have hL : startswith l "Line:" = false := startswith_excl (by decide) (by decide) h
  have hS : startswith l "Severity:" = false := startswith_excl (by decide) (by decide) h
  have hI : startswith l "Issue:" = false := startswith_excl (by decide) (by decide) h
  unfold blockStep
  rw [if_neg (by simp [hL]), if_neg (by simp [hS]), if_neg (by simp [hI]), if_pos h]

theorem foldl_line_num (post : List (List Char)) :
    ∀ s : BlockState, (∀ l2 ∈ post, startswith l2 "Line:" = false) →
      (List.foldl blockStep s post).line_num = s.line_num := by
  induction post with
  | nil => intro s _; rfl
  | cons a t ih =>
    intro s h
    rw [List.foldl_cons, ih _ (fun x hx => h x (List.mem_cons_of_mem _ hx)),
      blockStep_line_num s a (h a (List.mem_cons_self _ _))]

theorem foldl_severity (post : List (List Char)) :
    ∀ s : BlockState, (∀ l2 ∈ post, startswith l2 "Severity:" = false) →
      (List.foldl blockStep s post).severity = s.severity := by
  induction post with
  | nil => intro s _; rfl
  | cons a t ih =>
    intro s h
    rw [List.foldl_cons, ih _ (fun x hx => h x (List.mem_cons_of_mem _ hx)),
      blockStep_severity s a (h a (List.mem_cons_self _ _))]

theorem foldl_issue (post : List (List Char)) :
    ∀ s : BlockState, (∀ l2 ∈ post, startswith l2 "Issue:" = false) →
      (List.foldl blockStep s post).issue = s.issue := by
  induction post with
  | nil => intro s _; rfl
  | cons a t ih =>
    intro s h
    rw [List.foldl_cons, ih _ (fun x hx => h x (List.mem_cons_of_mem _ hx)),
      blockStep_issue s a (h a (List.mem_cons_self _ _))]

theorem foldl_suggestion (post : List (List Char)) :
    ∀ s : BlockState, (∀ l2 ∈ post, startswith l2 "Suggestion:" = false) →
      (List.foldl blockStep s post).suggestion = s.suggestion := by
  induction post with
  | nil => intro s _; rfl
  | cons a t ih =>
    intro s h
    rw [List.foldl_cons, ih _ (fun x hx => h x (List.mem_cons_of_mem _ hx)),
      blockStep_suggestion s a (h a (List.mem_cons_self _ _))]

theorem field_not_fence {l : List Char} {q : String} {d : Char} {dt : List Char}
    (hq : q.data = d :: dt) (hd : isPySpace d = false) (hne : d ≠ '`')
    (h : startswith l q = true) :
    startswith (pyStrip l) "```suggestion" = false := by
  obtain ⟨t, rfl⟩ := startswith_shape hq h
  obtain ⟨ds, hds⟩ := pyStrip_cons_of_not_space hd
  rw [hds]
  exact startswith_cons_ne
    (show ("```suggestion" : String).data = '`' :: "``suggestion".data from rfl) hne.symm

theorem blockStep_fence_open (s : BlockState) (l : List Char)
    (h : startswith (pyStrip l) "```suggestion" = true) :
    blockStep s l = { s with in_code_block := true, suggestion_code := [] } := by
  have hL : startswith l "Line:" = false := by
    cases h0 : startswith l "Line:" with
    | false => rfl
    | true =>
      rw [field_not_fence (show ("Line:" : String).data = 'L' :: "ine:".data from rfl)
        (by decide) (by decide) h0] at h
      cases h
  have hS : startswith l "Severity:" = false := by
    cases h0 : startswith l "Severity:" with
    | false => rfl
    | true =>
      rw [field_not_fence (show ("Severity:" : String).data = 'S' :: "everity:".data from rfl)
        (by decide) (by decide) h0] at h
      cases h
  have hI : startswith l "Issue:" = false := by
    cases h0 : startswith l "Issue:" with
    | false => rfl
    | true =>
      rw [field_not_fence (show ("Issue:" : String).data = 'I' :: "ssue:".data from rfl)
        (by decide) (by decide) h0] at h
      cases h
  have hG : startswith l "Suggestion:" = false := by
    cases h0 : startswith l "Suggestion:" with
    | false => rfl
    | true =>
      rw [field_not_fence (show ("Suggestion:" : String).data = 'S' :: "uggestion:".data from rfl)
        (by decide) (by decide) h0] at h
      cases h
  unfold blockStep
  rw [if_neg (by simp [hL]), if_neg (by simp [hS]), if_neg (by simp [hI]),
    if_neg (by simp [hG]), if_pos h]

theorem foldl_code_congr (ls : List (List Char)) :
    ∀ s₁ s₂ : BlockState, s₁.in_code_block = s₂.in_code_block →
      s₁.suggestion_code = s₂.suggestion_code →
      (List.foldl blockStep s₁ ls).in_code_block = (List.foldl blockStep s₂ ls).in_code_block ∧
      (List.foldl blockStep s₁ ls).suggestion_code =
        (List.foldl blockStep s₂ ls).suggestion_code := by
  induction ls with
  | nil => exact fun s₁ s₂ h1 h2 => ⟨h1, h2⟩
  | cons l t ih =>
    intro s₁ s₂ h1 h2
    rw [List.foldl_cons, List.foldl_cons]
    apply ih
    · unfold blockStep
      rw [h1]
      split_ifs <;> simp [h1]
    · unfold blockStep
      rw [h1, h2]
      split_ifs <;> simp [h1, h2]

/-! ## Claim theorems -/

/-- C1: for the single-hunk patch `@@ -1,2 +1,3 @@`, ` context`,
`+added line`, `-removed`, the Diff Position Mapper returns exactly the map
{1 ↦ 2, 2 ↦ 3}: the context line at new line 1 maps to position 2, the
added line at new line 2 maps to position 3, and the removed line
contributes no key. -/
theorem C1_scenarioA_map :
    map_line_to_position "@@ -1,2 +1,3 @@\n context\n+added line\n-removed" = [(1, 2), (2, 3)] := by
  decide

/-- C2 counterexample: the file-header line `+++ b/x` starts with `+++`,
yet the Mapper records an entry for it (key 1, position 1) and advances the
resulting-file line counter, because the added-line branch tests only
`line.startswith("+")`; the claim predicts that such a line records no
entry, i.e. that this one-line patch yields the empty map. -/
theorem C2_counterexample :
    startswith "+++ b/x".data "+++" = true ∧ map_line_to_position "+++ b/x" = [(1, 1)] := by
  constructor
  · decide
  · decide

/-- C2 amended: for every patch line that starts with none of `@@`, `+`,
a space, or `-`, the Mapper increments the running position, records no
map entry and leaves the resulting-file line counter unchanged. (File
header lines are not in this residual class: a `+++` line is handled by
the added-line branch and is recorded, and a `---` line is handled by the
removed-line branch and skipped.) -/
theorem C2_other_lines_only_count_position (st : MapState) (l : List Char)
    (h1 : startswith l "@@" = false) (h2 : startswith l "+" = false)
    (h3 : startswith l " " = false) (h4 : startswith l "-" = false) :
    mapStep st l = { st with position := st.position + 1 } := by
  simp [mapStep, h1, h2, h3, h4]

/-- C2 witness: the git metadata line `index 000..111` is in the residual
class, and the Mapper only counts it. -/
theorem C2_witness :
    startswith "index 000..111".data "@@" = false ∧
    mapStep { line_map := [(1, 2)], position := 2, new_line_num := 1 } "index 000..111".data =
      { line_map := [(1, 2)], position := 3, new_line_num := 1 } := by
  refine ⟨by decide, ?_⟩
  rw [C2_other_lines_only_count_position _ _ (by decide) (by decide) (by decide) (by decide)]

/-- C3: the Structured Review Parser is not total on all inputs: on the
review text `"File:"` — a `File:` marker followed by an empty segment — the
code raises an `IndexError` at `lines[0]` (src/main.py line 298), modelled
here as the parse aborting with an error, contradicting the specified
"never raises" robustness property. -/
theorem C3_parser_raises_on_empty_block :
    parseReview "File:" = Except.error "list index out of range" := rfl

/-- C6 counterexample: Scenario B's review text does not parse to a finding
whose `suggested_code` is exactly `"if x is not None:"`: the captured code
carries a trailing newline, since the scan appends `line + "\n"` for every
line inside the fence. -/
theorem C6_counterexample :
    ¬ (∃ f : ReviewFinding,
        parseReview "File: app.py\nLine: 2\nSeverity: Major\nIssue: null check missing\nSuggestion: add guard\n```suggestion\nif x is not None:\n```" =
          Except.ok [f] ∧ f.suggestion_code = "if x is not None:") := by
  rintro ⟨f, hf, hc⟩
  have he :
      parseReview "File: app.py\nLine: 2\nSeverity: Major\nIssue: null check missing\nSuggestion: add guard\n```suggestion\nif x is not None:\n```" =
        Except.ok [⟨"app.py", some 2, some "Major", some "null check missing", some "add guard", "if x is not None:\n"⟩] := rfl
  rw [he] at hf
  simp only [Except.ok.injEq, List.cons.injEq] at hf
  rw [← hf.1] at hc
  simp at hc

/-- C6 amended: Scenario B's review text parses to exactly one
ReviewFinding with file_path "app.py", line_number 2, severity "Major",
issue "null check missing", suggestion "add guard", and suggested code
`"if x is not None:\n"` (the fenced line followed by the newline the scan
appends). -/
theorem C6_scenarioB_parse :
    parseReview "File: app.py\nLine: 2\nSeverity: Major\nIssue: null check missing\nSuggestion: add guard\n```suggestion\nif x is not None:\n```" =
      Except.ok [⟨"app.py", some 2, some "Major", some "null check missing", some "add guard", "if x is not None:\n"⟩] := rfl

/-- C9: the Diff Position Mapper is a total function: the empty patch
yields the empty map, and a line starting with `@@` that does not match the
hunk-header pattern only counts toward the position, leaving the map and
the resulting-file line counter unchanged. -/
theorem C9_mapper_total_and_defensive :
    map_line_to_position "" = [] ∧
    ∀ (st : MapState) (l : List Char), startswith l "@@" = true → hunkNewStart? l = none →
      mapStep st l = { st with position := st.position + 1 } := by
  constructor
  · rfl
  · intro st l h1 h2
    simp [mapStep, h1, h2]

/-- C9 witness: the malformed header `@@ bogus` is counted but otherwise
ignored. -/
theorem C9_witness :
    mapStep { line_map := [], position := 1, new_line_num := 4 } "@@ bogus".data =
      { line_map := [], position := 2, new_line_num := 4 } := by
  rw [C9_mapper_total_and_defensive.2 _ _ (by decide) (by decide)]

/-- C4 counterexample: a patch whose second hunk header jumps back to an
earlier resulting-file line makes the map non-monotone: the patch
`@@ -1,2 +1,2 @@`, ` a`, ` b`, `@@ -1,1 +1,1 @@`, ` c` yields the map
{1 ↦ 5, 2 ↦ 3}, where key 1 < key 2 but position 5 > position 3. -/
theorem C4_counterexample :
    ¬ mapMono (map_line_to_position "@@ -1,2 +1,2 @@\n a\n b\n@@ -1,1 +1,1 @@\n c") := by
  decide

/-- C4 amended: for every patch whose recorded resulting-file line numbers
strictly increase over the scan (each recording step uses a line number
larger than every key already in the map, as holds for every well-formed
patch whose hunks are disjoint and appear in ascending order), the map is
strictly monotone: entries with larger resulting-file line numbers have
strictly larger diff positions. -/
theorem C4_mapper_monotone (patch : String)
    (h : goodRun (splitlines patch.data) initMapState = true) :
    mapMono (map_line_to_position patch) := by
  unfold map_line_to_position
  have hinv : mapInv (List.foldl mapStep initMapState (splitlines patch.data)) :=
    goodRun_inv (splitlines patch.data) initMapState h
      ⟨List.Pairwise.nil, by intro e he; cases he⟩
  exact pairwise_mapMono hinv.1

/-- C4 witness: a well-formed two-hunk patch satisfies the increasing-run
hypothesis and its map is monotone. -/
theorem C4_witness :
    goodRun (splitlines "@@ -1,2 +1,3 @@\n ctx\n+add\n@@ -9,1 +10,2 @@\n keep\n+more".data)
      initMapState = true ∧
    mapMono (map_line_to_position "@@ -1,2 +1,3 @@\n ctx\n+add\n@@ -9,1 +10,2 @@\n keep\n+more") :=
  ⟨by decide, C4_mapper_monotone _ (by decide)⟩

/-- C7: the Line-Pair Extractor pairs each added line with at most the one
pending removed line: on `-foo\n+bar` it yields `[("foo", "bar")]`, on
`+baz` alone `[("", "baz")]`; a removed line (not `---`) overwrites any
unconsumed pending removal; an added line with a nonempty pending removal
closes the pair and clears it; `---`/`+++` header lines leave the state
untouched; pair texts are the line stripped of its leading marker and
surrounding whitespace. -/
theorem C7_extractor_pairing :
    extract_changed_lines "-foo\n+bar" = [("foo", "bar")] ∧
    extract_changed_lines "+baz" = [("", "baz")] ∧
    (∀ (st : ExtState) (l : List Char), startswith l "-" = true → startswith l "---" = false →
      extractStep st l = { st with prev_line := some (String.mk (pyStrip (l.drop 1))) }) ∧
    (∀ (st : ExtState) (l : List Char) (s : String), startswith l "+" = true →
      startswith l "+++" = false → st.prev_line = some s → s ≠ "" →
      extractStep st l =
        { changes := st.changes ++ [(s, String.mk (pyStrip (l.drop 1)))], prev_line := none }) ∧
    (∀ (st : ExtState) (l : List Char),
      startswith l "---" = true ∨ startswith l "+++" = true → extractStep st l = st) := by
  refine ⟨by decide, by decide, ?_, ?_, ?_⟩
  · intro st l h1 h2
    simp [extractStep, h1, h2]
  · intro st l s h1 h2 h3 h4
    obtain ⟨t, rfl⟩ := startswith_shape (show ("+" : String).data = '+' :: [] from rfl) h1
    have hminus : startswith ('+' :: t) "-" = false :=
      startswith_cons_ne (show ("-" : String).data = '-' :: [] from rfl) (by decide)
    simp [extractStep, hminus, h1, h2, h3, h4]
  · intro st l h
    rcases h with h | h
    · have hplus : startswith l "+" = false := by
        obtain ⟨t, rfl⟩ := startswith_shape (show ("---" : String).data = '-' :: '-' :: '-' :: [] from rfl) h
        exact startswith_cons_ne (show ("+" : String).data = '+' :: [] from rfl) (by decide)
      simp [extractStep, h, hplus]
    · have hminus : startswith l "-" = false := by
        obtain ⟨t, rfl⟩ := startswith_shape (show ("+++" : String).data = '+' :: '+' :: '+' :: [] from rfl) h
        exact startswith_cons_ne (show ("-" : String).data = '-' :: [] from rfl) (by decide)
      simp [extractStep, h, hminus]

/-- C7 witness: a concrete instantiation of each universally quantified
pairing rule: a fresh removal overwrites a pending one, an addition closes
a pending pair, and header lines are ignored. -/
theorem C7_witness :
    extractStep { changes := [], prev_line := some "old" } "-new  ".data =
      { changes := [], prev_line := some "new" } ∧
    extractStep { changes := [], prev_line := some "foo" } "+ bar ".data =
      { changes := [("foo", "bar")], prev_line := none } ∧
    extractStep { changes := [], prev_line := some "foo" } "--- a/f.py".data =
      { changes := [], prev_line := some "foo" } ∧
    extractStep { changes := [], prev_line := some "foo" } "+++ b/f.py".data =
      { changes := [], prev_line := some "foo" } := by
  refine ⟨?_, ?_, ?_, ?_⟩
  · rw [C7_extractor_pairing.2.2.1 _ _ (by decide) (by decide)]
    decide
  · rw [C7_extractor_pairing.2.2.2.1 _ _ "foo" (by decide) (by decide) rfl (by decide)]
    decide
  · rw [C7_extractor_pairing.2.2.2.2 _ _ (Or.inl (by decide))]
  · rw [C7_extractor_pairing.2.2.2.2 _ _ (Or.inr (by decide))]

/-- C5: a finding whose line_number is absent, whose file is not a key of
the per-file map collection, or whose line_number is not a key of that
file's map, produces no InlineCommentRequest and exactly one diagnostic
naming the file and line; the finding is simply dropped. -/
theorem C5_unmapped_dropped (maps : List (String × List (Int × Nat)))
    (post : InlineCommentRequest → Except String Unit) (f : ReviewFinding)
    (h : f.line_number = none ∨ List.lookup f.file_path maps = none ∨
      ∀ (n : Int) (m : List (Int × Nat)), f.line_number = some n →
        List.lookup f.file_path maps = some m → List.lookup n m = none) :
    reconcileOne maps post f = ([], [Diag.unmapped f.file_path f.line_number]) := by
  rcases h with h | h | h
  · cases hm : List.lookup f.file_path maps <;> simp [reconcileOne, hm, h]
  · simp [reconcileOne, h]
  · cases hm : List.lookup f.file_path maps with
    | none => simp [reconcileOne, hm]
    | some m =>
      cases hn : f.line_number with
      | none => simp [reconcileOne, hm, hn]
      | some n => simp [reconcileOne, hm, hn, h n m hn hm]

/-- C5 witness: a finding for a file absent from the map collection is
dropped with one diagnostic. -/
theorem C5_witness :
    reconcileOne [("a.py", [((1 : Int), 2)])] (fun _ => Except.ok ())
        ⟨"b.py", some 1, none, none, none, ""⟩ =
      ([], [Diag.unmapped "b.py" (some 1)]) :=
  C5_unmapped_dropped _ _ _ (Or.inr (Or.inl (by decide)))

/-- C8: when the posting capability fails for one mapped finding, the
reconciler records one failed-posting diagnostic for it and the results for
every remaining finding are produced unchanged — the loop never aborts. -/
theorem C8_post_failure_is_isolated (maps : List (String × List (Int × Nat)))
    (post : InlineCommentRequest → Except String Unit) (f : ReviewFinding)
    (rest : List ReviewFinding) (n : Int) (m : List (Int × Nat)) (pos : Nat) (e : String)
    (hm : List.lookup f.file_path maps = some m)
    (hn : f.line_number = some n)
    (hp : List.lookup n m = some pos)
    (hpost : post ⟨f.file_path, pos, comment_body f.severity f.issue f.suggestion f.suggestion_code⟩ =
      Except.error e) :
    reconcile maps post (f :: rest) =
      ((⟨f.file_path, pos, comment_body f.severity f.issue f.suggestion f.suggestion_code⟩ :
          InlineCommentRequest) :: (reconcile maps post rest).1,
        Diag.postFailed f.file_path (some n) e :: (reconcile maps post rest).2) := by
  have h1 : reconcileOne maps post f =
      ([(⟨f.file_path, pos, comment_body f.severity f.issue f.suggestion f.suggestion_code⟩ :
          InlineCommentRequest)],
        [Diag.postFailed f.file_path (some n) e]) := by
    simp [reconcileOne, hm, hn, hp, hpost]
  simp [reconcile, h1]

/-- C8 witness: a posting capability that always fails still lets the
reconciler process the rest of the findings. -/
theorem C8_witness :
    reconcile [("a.py", [((1 : Int), 5)])] (fun _ => Except.error "HTTP 422")
        [⟨"a.py", some 1, some "Major", some "i", some "s", "x\n"⟩,
          ⟨"b.py", some 3, none, none, none, ""⟩] =
      ((⟨"a.py", 5, comment_body (some "Major") (some "i") (some "s") "x\n"⟩ :
          InlineCommentRequest) ::
        (reconcile [("a.py", [((1 : Int), 5)])] (fun _ => Except.error "HTTP 422")
          [⟨"b.py", some 3, none, none, none, ""⟩]).1,
        Diag.postFailed "a.py" (some 1) "HTTP 422" ::
        (reconcile [("a.py", [((1 : Int), 5)])] (fun _ => Except.error "HTTP 422")
          [⟨"b.py", some 3, none, none, none, ""⟩]).2) :=
  C8_post_failure_is_isolated _ _ _ _ 1 [((1 : Int), 5)] 5 "HTTP 422" (by decide) rfl (by decide) rfl

/-- C10: within one `File:` block each field takes the value of its last
occurrence — after the last `Line:`/`Severity:`/`Issue:`/`Suggestion:`
line, the corresponding field equals the value parsed from that line,
whatever came before — and opening a second ```` ```suggestion ````
fence discards the code of any earlier fence: the captured code depends
only on the lines from the last opened fence on, as if the scan had begun
at the fence in a pristine state. -/
theorem C10_last_occurrence_wins :
    (∀ (st : BlockState) (pre : List (List Char)) (l : List Char) (post : List (List Char)),
      startswith l "Line:" = true → (∀ l2 ∈ post, startswith l2 "Line:" = false) →
      (List.foldl blockStep st (pre ++ l :: post)).line_num = pyInt? (l.drop 5)) ∧
    (∀ (st : BlockState) (pre : List (List Char)) (l : List Char) (post : List (List Char)),
      startswith l "Severity:" = true → (∀ l2 ∈ post, startswith l2 "Severity:" = false) →
      (List.foldl blockStep st (pre ++ l :: post)).severity = some (fieldVal l 9)) ∧
    (∀ (st : BlockState) (pre : List (List Char)) (l : List Char) (post : List (List Char)),
      startswith l "Issue:" = true → (∀ l2 ∈ post, startswith l2 "Issue:" = false) →
      (List.foldl blockStep st (pre ++ l :: post)).issue = some (fieldVal l 6)) ∧
    (∀ (st : BlockState) (pre : List (List Char)) (l : List Char) (post : List (List Char)),
      startswith l "Suggestion:" = true → (∀ l2 ∈ post, startswith l2 "Suggestion:" = false) →
      (List.foldl blockStep st (pre ++ l :: post)).suggestion = some (fieldVal l 11)) ∧
    (∀ (st : BlockState) (pre : List (List Char)) (l : List Char) (post : List (List Char)),
      startswith (pyStrip l) "```suggestion" = true →
      (List.foldl blockStep st (pre ++ l :: post)).suggestion_code =
        (List.foldl blockStep initBlockState (l :: post)).suggestion_code) := by
  refine ⟨?_, ?_, ?_, ?_, ?_⟩
  · intro st pre l post h hpost
    rw [List.foldl_append, List.foldl_cons, foldl_line_num post _ hpost,
      blockStep_line_num_set _ _ h]
  · intro st pre l post h hpost
    rw [List.foldl_append, List.foldl_cons, foldl_severity post _ hpost,
      blockStep_severity_set _ _ h]
  · intro st pre l post h hpost
    rw [List.foldl_append, List.foldl_cons, foldl_issue post _ hpost,
      blockStep_issue_set _ _ h]
  · intro st pre l post h hpost
    rw [List.foldl_append, List.foldl_cons, foldl_suggestion post _ hpost,
      blockStep_suggestion_set _ _ h]
  · intro st pre l post h
    rw [List.foldl_append, List.foldl_cons, List.foldl_cons]
    exact (foldl_code_congr post _ _
      (by rw [blockStep_fence_open _ _ h, blockStep_fence_open _ _ h])
      (by rw [blockStep_fence_open _ _ h, blockStep_fence_open _ _ h])).2

/-- C10 witness: with two occurrences of each field the later one wins, and
a second opened fence discards the earlier fence's code. -/
theorem C10_witness :
    (List.foldl blockStep initBlockState ["Line: 1".data, "Line: 2".data]).line_num =
      pyInt? ("Line: 2".data.drop 5) ∧
    (List.foldl blockStep initBlockState
        ["Severity: Minor".data, "Severity: Major".data]).severity =
      some (fieldVal "Severity: Major".data 9) ∧
    (List.foldl blockStep initBlockState ["Issue: a".data, "Issue: b".data]).issue =
      some (fieldVal "Issue: b".data 6) ∧
    (List.foldl blockStep initBlockState
        ["Suggestion: x".data, "Suggestion: y".data]).suggestion =
      some (fieldVal "Suggestion: y".data 11) ∧
    (List.foldl blockStep initBlockState
        ["```suggestion".data, "old".data, "```".data, "```suggestion".data,
          "new".data]).suggestion_code =
      (List.foldl blockStep initBlockState
        ["```suggestion".data, "new".data]).suggestion_code := by
  refine ⟨?_, ?_, ?_, ?_, ?_⟩
  · exact C10_last_occurrence_wins.1 initBlockState ["Line: 1".data] "Line: 2".data []
      (by decide) (by simp)
  · exact C10_last_occurrence_wins.2.1 initBlockState ["Severity: Minor".data]
      "Severity: Major".data [] (by decide) (by simp)
  · exact C10_last_occurrence_wins.2.2.1 initBlockState ["Issue: a".data] "Issue: b".data []
      (by decide) (by simp)
  · exact C10_last_occurrence_wins.2.2.2.1 initBlockState ["Suggestion: x".data]
      "Suggestion: y".data [] (by decide) (by simp)
  · exact C10_last_occurrence_wins.2.2.2.2 initBlockState
      ["```suggestion".data, "old".data, "```".data] "```suggestion".data ["new".data]
      (by decide)

end GitKeGunde
